import Mathlib

/-!
Verification of the inventory-management application's core logic.

The development shallowly embeds the sqlite branch (the default backend,
`DB_TYPE = "sqlite"`) of `database/operations.py`, the pure validation
functions of `utils/validation.py`, and the stock-movement submit logic of
`pages/update_stock.py` (`show_stock_update_tab`).  Machine/database state
is a `Store` value; timestamps are abstract ticks passed in as `now`;
Python floats (REAL columns) are modelled as rationals; SQL row ids are a
counter carried in the store.
-/

/-- Row of the `products` table (`config/database.py` schema): quantities are
INTEGER columns (modelled as `Int`), price/cost REAL columns (modelled as
`Rat`), dates TEXT timestamps (modelled as abstract `Nat` ticks). -/
structure Product where
  product_id : Nat
  name : String
  quantity : Int
  min_quantity : Int
  price : Rat
  cost : Rat
  created_date : Nat
  last_updated : Nat
deriving DecidableEq

/-- Row of the `transactions` table: `transaction_type` is stored verbatim as
the string handed to `add_transaction`, `quantity_change` is a signed INTEGER. -/
structure Transaction where
  transaction_id : Nat
  product_id : Nat
  transaction_type : String
  quantity_change : Int
  timestamp : Nat
deriving DecidableEq

/-- The sqlite database state: the two tables plus the AUTOINCREMENT counter
that assigns `transaction_id`s (`cursor.lastrowid` after an insert). -/
structure Store where
  products : List Product
  transactions : List Transaction
  next_transaction_id : Nat
deriving DecidableEq

/-- Byte-wise comparison of two names, as sqlite's default BINARY collation
orders TEXT in `ORDER BY name` (code points, which for ASCII equals bytes). -/
def str_le_chars : List Char → List Char → Bool
  | [], _ => true
  | _ :: _, [] => false
  | a :: as, b :: bs => if a.toNat = b.toNat then str_le_chars as bs else decide (a.toNat < b.toNat)

/-- Ordering of product rows produced by `SELECT * FROM products ORDER BY name`. -/
def product_name_le (a b : Product) : Prop :=
  str_le_chars a.name.data b.name.data = true

instance : DecidableRel product_name_le :=
  fun a b => inferInstanceAs (Decidable (str_le_chars a.name.data b.name.data = true))

/-- Embeds `get_all_products` (operations.py): `SELECT * FROM products ORDER BY
name`.  Sorting is modelled with insertion sort; the claims depend on the
result being a name-ordered permutation of the table. -/
def get_all_products (s : Store) : List Product :=
  List.insertionSort product_name_le s.products

/-- Embeds `update_product_stock` (operations.py): `UPDATE products SET
quantity = ?, last_updated = ? WHERE product_id = ?`, returning
`cursor.rowcount > 0`. -/
def update_product_stock (s : Store) (product_id : Nat) (new_quantity : Int) (now : Nat) :
    Store × Bool :=
  ({ s with
      products := s.products.map fun p =>
        if p.product_id = product_id then
          { p with quantity := new_quantity, last_updated := now }
        else p },
   s.products.any fun p => p.product_id == product_id)

/-- Embeds `add_transaction` (operations.py): `INSERT INTO transactions
(product_id, transaction_type, quantity_change, timestamp) VALUES (?,?,?,?)`,
returning `cursor.lastrowid`. -/
def add_transaction (s : Store) (product_id : Nat) (transaction_type : String)
    (quantity_change : Int) (now : Nat) : Store × Nat :=
  ({ s with
      transactions := s.transactions ++
        [⟨s.next_transaction_id, product_id, transaction_type, quantity_change, now⟩],
      next_transaction_id := s.next_transaction_id + 1 },
   s.next_transaction_id)

/-- Embeds `delete_product` (operations.py): `DELETE FROM transactions WHERE
product_id = ?` then `DELETE FROM products WHERE product_id = ?`; the returned
flag is `cursor.rowcount > 0` of the second (product) delete. -/
def delete_product (s : Store) (product_id : Nat) : Store × Bool :=
  ({ s with
      products := s.products.filter (fun p => ! (p.product_id == product_id)),
      transactions := s.transactions.filter (fun t => ! (t.product_id == product_id)) },
   s.products.any fun p => p.product_id == product_id)

/-- Embeds `update_product_details` (operations.py): `UPDATE products SET
name = ?, min_quantity = ?, price = ?, cost = ?, last_updated = ? WHERE
product_id = ?`, returning `cursor.rowcount > 0`. -/
def update_product_details (s : Store) (product_id : Nat) (name : String)
    (min_quantity : Int) (price cost : Rat) (now : Nat) : Store × Bool :=
  ({ s with
      products := s.products.map fun p =>
        if p.product_id = product_id then
          { p with name := name, min_quantity := min_quantity, price := price,
                   cost := cost, last_updated := now }
        else p },
   s.products.any fun p => p.product_id == product_id)

/-- Result record of `get_inventory_stats` (operations.py). -/
structure InventoryStats where
  total_products : Nat
  total_value : Rat
  total_items : Int
  low_stock_count : Nat
deriving DecidableEq

/-- Embeds `get_inventory_stats` (operations.py): reads `get_all_products`,
returns the all-zero record on an empty frame, otherwise row count, the sum of
`quantity * price`, the sum of `quantity`, and the count of rows with
`quantity <= min_quantity`. -/
def get_inventory_stats (s : Store) : InventoryStats :=
  let df := get_all_products s
  if df.isEmpty then
    ⟨0, 0, 0, 0⟩
  else
    ⟨df.length,
     (df.map fun p => (p.quantity : Rat) * p.price).sum,
     (df.map fun p => p.quantity).sum,
     (df.filter fun p => p.quantity ≤ p.min_quantity).length⟩

/-- Embeds `validate_product_data` (utils/validation.py): accumulates one
message per violated constraint, in source order; `none` models Python `None`
for the optional arguments, and `name.trim = ""` covers both `not name` and
`not name.strip()`. -/
def validate_product_data (name : String) (price : Option Rat)
    (quantity : Option Int) (min_quantity : Option Int) (cost : Option Rat) :
    List String :=
  let errors : List String := []
  let errors :=
    if name.trim = "" then errors ++ ["Məhsul adı tələb olunur"]
    else if name.trim.length < 2 then errors ++ ["Məhsul adı ən azı 2 simvol olmalıdır"]
    else errors
  let errors :=
    match price with
    | none => errors ++ ["Qiymət 0-dan böyük olmalıdır"]
    | some p => if p ≤ 0 then errors ++ ["Qiymət 0-dan böyük olmalıdır"] else errors
  let errors :=
    match quantity with
    | some q => if q < 0 then errors ++ ["Miqdar mənfi ola bilməz"] else errors
    | none => errors
  let errors :=
    match min_quantity with
    | some mq => if mq < 0 then errors ++ ["Minimum miqdar mənfi ola bilməz"] else errors
    | none => errors
  let errors :=
    match cost with
    | some c => if c < 0 then errors ++ ["Maya dəyəri mənfi ola bilməz"] else errors
    | none => errors
  errors

/-- Outcome of one submit of the stock-movement form, distinguishing the
`st.error` insufficient-stock rejection and the pre-form lookup failure
(`.iloc[0]` on an empty selection raises before any database call). -/
inductive MovementOutcome where
  | applied (new_quantity : Int) (transaction_id : Nat)
  | insufficientStock
  | productNotFound
deriving DecidableEq

/-- Options of the stock-movement form's type selectbox
(pages/update_stock.py, `st.selectbox("Əməliyyat Növü", ["SATIŞ", "STOKU
ARTIR"], ...)`): the only `transaction_type` values the submit handler can
ever receive from the program.  Neither equals the `"SALE"` literal the
handler compares against, although the widget's own help text ("SALE: Stoku
azaldır, RESTOCK: Stoku artırır") and the history tab's `'SALE'`/`'RESTOCK'`
filters document sale/restock semantics as the intent. -/
def transaction_type_options : List String :=
  ["SATIŞ", "STOKU ARTIR"]

/-- Embeds the submitted branch of `show_stock_update_tab`
(pages/update_stock.py, the stock-movement protocol the spec calls
`apply_stock_movement`): read the selected row's quantity, reject when
`transaction_type == "SALE" and quantity_change > current_stock`, otherwise
write `current_stock ∓ quantity_change` through `update_product_stock` and
record the signed delta through `add_transaction`.  `transaction_type` is the
selectbox value: in every reachable execution it is drawn from
`transaction_type_options`, so the `= "SALE"` tests below are false in the
program and only the add-stock branch ever runs. -/
def apply_stock_movement (s : Store) (product_id : Nat) (transaction_type : String)
    (quantity_change : Int) (now : Nat) : Store × MovementOutcome :=
  match s.products.find? (fun p => p.product_id == product_id) with
  | none => (s, .productNotFound)
  | some selected =>
    let current_stock := selected.quantity
    if transaction_type = "SALE" ∧ quantity_change > current_stock then
      (s, .insufficientStock)
    else
      let nq_delta : Int × Int :=
        if transaction_type = "SALE" then
          (current_stock - quantity_change, -quantity_change)
        else
          (current_stock + quantity_change, quantity_change)
      let s1 := (update_product_stock s product_id nq_delta.1 now).1
      let s2 := add_transaction s1 product_id transaction_type nq_delta.2 now
      (s2.1, .applied nq_delta.1 s2.2)

/-- One stock-movement submit, keeping only the store
(product_id, transaction_type, quantity_change, now). -/
def step_movement (s : Store) (op : Nat × String × Int × Nat) : Store :=
  (apply_stock_movement s op.1 op.2.1 op.2.2.1 op.2.2.2).1

/-- A sequence of stock-movement submits. -/
def run_movements (s : Store) (ops : List (Nat × String × Int × Nat)) : Store :=
  ops.foldl step_movement s

/-- Sum of `quantity_change` over the transactions of one product, the ledger
side of the spec's reconciliation invariant. -/
def ledger_sum (s : Store) (product_id : Nat) : Int :=
  ((s.transactions.filter fun t => t.product_id == product_id).map
    fun t => t.quantity_change).sum

/-- Decidable form of the reconciliation invariant: every product of `s` still
exists in `s0` (same id) and its quantity equals that initial quantity plus
the ledger sum of its transactions in `s`. -/
def reconciles (s0 s : Store) : Bool :=
  s.products.all fun p =>
    match s0.products.find? (fun q => q.product_id == p.product_id) with
    | some p0 => p.quantity == p0.quantity + ledger_sum s p.product_id
    | none => false

/-- Ledger balance relative to fixed initial quantities: every product row's
quantity equals its initial quantity plus the sum of its transaction deltas. -/
def stock_ledger_inv (init : Nat → Int) (s : Store) : Prop :=
  ∀ p ∈ s.products, p.quantity = init p.product_id + ledger_sum s p.product_id

/-- Initial quantity of a product id as recorded in the creation-time store. -/
def init_qty (s0 : Store) (pid : Nat) : Int :=
  match s0.products.find? (fun p => p.product_id == pid) with
  | some p => p.quantity
  | none => 0

/-- Models one character step of Python `re` matching for the regex fragment
used here (literal characters and the `.` wildcard) under `re.IGNORECASE`
with ASCII case folding: `.` matches anything, other pattern characters match
case-insensitively. -/
def re_char_match (pc c : Char) : Bool :=
  (pc == '.') || (pc.toLower == c.toLower)

/-- Matching of the whole pattern at the head of the subject. -/
def re_match_here : List Char → List Char → Bool
  | [], _ => true
  | _ :: _, [] => false
  | pc :: ps, c :: cs => re_char_match pc c && re_match_here ps cs

/-- Models `re.search`: the pattern matches at some position of the subject.
Together with `re_match_here` this embeds what
`Series.str.contains(term, case=False, na=False)` computes in
`search_products` — pandas compiles `term` as a regular expression by
default (`regex=True`), it is not a literal substring test. -/
def re_search (pat : List Char) : List Char → Bool
  | [] => re_match_here pat []
  | c :: cs => re_match_here pat (c :: cs) || re_search pat cs

/-- Embeds `search_products` (operations.py): reads `get_all_products` and
keeps the rows whose name the pattern matches,
`df[df['name'].str.contains(search_term, case=False, na=False)]`. -/
def search_products (s : Store) (search_term : String) : List Product :=
  let df := get_all_products s
  df.filter fun p => re_search search_term.data p.name.data

/-- Modelled from the spec: case-insensitive prefix test (ASCII folding),
the building block of the spec's substring predicate. -/
def ci_prefix : List Char → List Char → Bool
  | [], _ => true
  | _ :: _, [] => false
  | a :: as, b :: bs => (a.toLower == b.toLower) && ci_prefix as bs

/-- Modelled from the spec: the spec-side search predicate, "case-insensitive
substring match on name" — the term occurs contiguously in the name up to
ASCII case. -/
def ci_contains (term : List Char) : List Char → Bool
  | [] => ci_prefix term []
  | c :: cs => ci_prefix term (c :: cs) || ci_contains term cs

/-- Characters Python `re` treats specially. -/
def regex_metachars : List Char :=
  ['.', '^', '$', '*', '+', '?', Char.ofNat 123, Char.ofNat 125, '[', ']', '(', ')', '|', '\\']

/-- Terms containing no regex metacharacter, on which the regex model is both
faithful and equivalent to a literal substring search. -/
def regex_literal (term : String) : Bool :=
  term.data.all fun c => ! regex_metachars.contains c

/-- Decidable check that a result list is ordered by name. -/
def sorted_by_name : List Product → Bool
  | [] => true
  | [_] => true
  | a :: b :: rest => str_le_chars a.name.data b.name.data && sorted_by_name (b :: rest)

example :
    apply_stock_movement ⟨[⟨1, "ab", 5, 5, 1, 0, 0, 0⟩], [], 1⟩ 1 "SALE" 6 7 =
      (⟨[⟨1, "ab", 5, 5, 1, 0, 0, 0⟩], [], 1⟩, .insufficientStock) := by decide

example :
    apply_stock_movement ⟨[⟨1, "ab", 5, 5, 1, 0, 0, 0⟩], [], 1⟩ 1 "SALE" 5 7 =
      (⟨[⟨1, "ab", 0, 5, 1, 0, 0, 7⟩], [⟨1, 1, "SALE", -5, 7⟩], 2⟩, .applied 0 1) := by decide

example :
    run_movements ⟨[⟨1, "ab", 5, 5, 1, 0, 0, 0⟩], [], 1⟩
      [(1, "RESTOCK", 4, 1), (1, "SALE", 7, 2)] =
      ⟨[⟨1, "ab", 2, 5, 1, 0, 0, 2⟩], [⟨1, 1, "RESTOCK", 4, 1⟩, ⟨2, 1, "SALE", -7, 2⟩], 3⟩ := by decide

example :
    reconciles ⟨[⟨1, "ab", 5, 5, 1, 0, 0, 0⟩], [], 1⟩
      (run_movements ⟨[⟨1, "ab", 5, 5, 1, 0, 0, 0⟩], [], 1⟩
        [(1, "RESTOCK", 4, 1), (1, "SALE", 7, 2)]) = true := by decide

theorem apply_stock_movement_cases (s : Store) (pid : Nat) (ty : String) (u : Int) (now : Nat) :
    (apply_stock_movement s pid ty u now).1 = s ∨
    ∃ sel d, s.products.find? (fun p => p.product_id == pid) = some sel ∧
      (apply_stock_movement s pid ty u now).1 =
        { products := s.products.map fun p =>
            if p.product_id = pid then
              { p with quantity := sel.quantity + d, last_updated := now }
            else p,
          transactions := s.transactions ++ [⟨s.next_transaction_id, pid, ty, d, now⟩],
          next_transaction_id := s.next_transaction_id + 1 } := by
  unfold apply_stock_movement
  cases hfind : s.products.find? (fun p => p.product_id == pid) with
  | none => left; rfl
  | some sel =>
    by_cases hg : ty = "SALE" ∧ u > sel.quantity
    · left; simp [hg]
    · right
      by_cases hs : ty = "SALE"
      · have hnlt : ¬ sel.quantity < u := fun hlt => hg ⟨hs, hlt⟩
        exact ⟨sel, -u, rfl,
          by simp [hs, hnlt, update_product_stock, add_transaction, sub_eq_add_neg]⟩
      · exact ⟨sel, u, rfl, by simp [hg, hs, update_product_stock, add_transaction]⟩

/-- For every transaction type the selectbox can produce, the `= "SALE"`
guard and sale branch of the submit handler are dead: the movement is never
rejected for insufficient stock, and the product's quantity is increased by
`u` with a `+u` transaction appended — for sales as well as restocks. -/
theorem apply_stock_movement_selectbox (s : Store) (pid : Nat) (ty : String) (u : Int)
    (now : Nat) (sel : Product) (hty : ty ∈ transaction_type_options)
    (hfind : s.products.find? (fun p => p.product_id == pid) = some sel) :
    apply_stock_movement s pid ty u now =
      ({ products := s.products.map fun p =>
           if p.product_id = pid then
             { p with quantity := sel.quantity + u, last_updated := now }
           else p,
         transactions := s.transactions ++ [⟨s.next_transaction_id, pid, ty, u, now⟩],
         next_transaction_id := s.next_transaction_id + 1 },
       MovementOutcome.applied (sel.quantity + u) s.next_transaction_id) := by
  have hne : ¬ ty = "SALE" := by
    rw [transaction_type_options] at hty
    simp only [List.mem_cons, List.not_mem_nil, or_false] at hty
    rcases hty with h | h <;> subst h <;> decide
  have hg : ¬ (ty = "SALE" ∧ u > sel.quantity) := fun h => hne h.1
  unfold apply_stock_movement
  rw [hfind]
  simp [hg, hne, update_product_stock, add_transaction]

/-- C1 (the code violates the claim): the selectbox yields "SATIŞ", never the
"SALE" the handler compares against, so the insufficient-stock guard is dead.
At the claim's own scenario — stock 5, sale of 6 units — the submitted sale is
accepted rather than rejected: the quantity is mutated from 5 to 11,
`last_updated` is set, and a Transaction with `quantity_change = +6` is
inserted. -/
theorem sale_oversell_goes_through :
    "SATIŞ" ∈ transaction_type_options ∧
    apply_stock_movement ⟨[⟨1, "ab", 5, 5, 1, 0, 0, 0⟩], [], 1⟩ 1 "SATIŞ" 6 9 =
      (⟨[⟨1, "ab", 11, 5, 1, 0, 0, 9⟩], [⟨1, 1, "SATIŞ", 6, 9⟩], 2⟩,
       MovementOutcome.applied 11 1) :=
  ⟨by decide, by decide⟩

/-- C2: every execution of the stock-movement submit is one unit of work:
either the store is returned completely unchanged, or the selected product's
quantity is updated and exactly one Transaction carrying the same signed delta
is appended — never one without the other. -/
theorem stock_movement_unit_of_work (s : Store) (pid : Nat) (ty : String) (u : Int) (now : Nat) :
    (apply_stock_movement s pid ty u now).1 = s ∨
    ∃ sel d, s.products.find? (fun p => p.product_id == pid) = some sel ∧
      (apply_stock_movement s pid ty u now).1 =
        { products := s.products.map fun p =>
            if p.product_id = pid then
              { p with quantity := sel.quantity + d, last_updated := now }
            else p,
          transactions := s.transactions ++ [⟨s.next_transaction_id, pid, ty, d, now⟩],
          next_transaction_id := s.next_transaction_id + 1 } :=
  apply_stock_movement_cases s pid ty u now

/-- C4 (the code violates the claim's SALE half): at the claim's own
scenario — stock 10, sale of exactly 10 units via the selectbox value
"SATIŞ" — the code yields quantity 20 with a `+10` transaction, not quantity 0
with a `-10` one, because the `= "SALE"` branch at lines 112-114 is
unreachable and every movement takes the add-stock branch.  The restock half
happens to hold only because that add-stock branch is what the claim expects
of RESTOCK. -/
theorem sale_exact_stock_adds_bug :
    "SATIŞ" ∈ transaction_type_options ∧
    apply_stock_movement ⟨[⟨1, "ab", 10, 5, 1, 0, 0, 0⟩], [], 1⟩ 1 "SATIŞ" 10 9 =
      (⟨[⟨1, "ab", 20, 5, 1, 0, 0, 9⟩], [⟨1, 1, "SATIŞ", 10, 9⟩], 2⟩,
       MovementOutcome.applied 20 1) :=
  ⟨by decide, by decide⟩

/-- C10: `update_product_stock` writes the given quantity to the product row
verbatim — any integer, negative values included — sets `last_updated`, and
returns true whenever the product id exists; it performs no non-negativity or
consistency check of its own. -/
theorem update_product_stock_unchecked (s : Store) (pid : Nat) (q : Int) (now : Nat)
    (hex : s.products.any (fun p => p.product_id == pid) = true) :
    update_product_stock s pid q now =
      ({ s with products := s.products.map fun p =>
          if p.product_id = pid then { p with quantity := q, last_updated := now } else p },
       true) := by
  unfold update_product_stock
  rw [hex]

theorem update_product_stock_unchecked_witness :
    update_product_stock ⟨[⟨1, "ab", 5, 5, 1, 0, 0, 0⟩], [], 1⟩ 1 (-7) 9 =
      ({ products := [⟨1, "ab", 5, 5, 1, 0, 0, 0⟩].map fun p =>
          if p.product_id = 1 then { p with quantity := (-7 : Int), last_updated := 9 } else p,
         transactions := [],
         next_transaction_id := 1 },
       true) :=
  update_product_stock_unchecked ⟨[⟨1, "ab", 5, 5, 1, 0, 0, 0⟩], [], 1⟩ 1 (-7) 9 (by decide)

/-- C8: `update_product_details` only touches name, min_quantity, price, cost
and `last_updated`: every row keeps its `product_id`, `quantity` and
`created_date`, the transactions table is untouched, and the call returns
false exactly when no row has the given product id. -/
theorem update_product_details_frame (s : Store) (pid : Nat) (nm : String)
    (minq : Int) (pr c : Rat) (now : Nat) :
    ((update_product_details s pid nm minq pr c now).1.products.map fun p =>
        (p.product_id, p.quantity, p.created_date)) =
      (s.products.map fun p => (p.product_id, p.quantity, p.created_date)) ∧
    (update_product_details s pid nm minq pr c now).1.transactions = s.transactions ∧
    ((update_product_details s pid nm minq pr c now).2 = false ↔
      s.products.all (fun p => ! (p.product_id == pid)) = true) := by
  refine ⟨?_, rfl, ?_⟩
  · unfold update_product_details
    simp only [List.map_map]
    apply List.map_congr_left
    intro p _
    by_cases h : p.product_id = pid <;> simp [h]
  · unfold update_product_details
    simp [List.any_eq_true, List.all_eq_true]

/-- C6: after `delete_product` no row of either table carries the deleted
product id — the product and its whole transaction history are gone — and the
returned flag is false exactly when the product did not exist. -/
theorem delete_product_cascade (s : Store) (pid : Nat) :
    (delete_product s pid).1.products.all (fun p => ! (p.product_id == pid)) = true ∧
    (delete_product s pid).1.transactions.all (fun t => ! (t.product_id == pid)) = true ∧
    ((delete_product s pid).2 = false ↔
      s.products.all (fun p => ! (p.product_id == pid)) = true) := by
  refine ⟨?_, ?_, ?_⟩
  · unfold delete_product
    simp only [List.all_eq_true]
    intro p hp
    exact (List.mem_filter.mp hp).2
  · unfold delete_product
    simp only [List.all_eq_true]
    intro t ht
    exact (List.mem_filter.mp ht).2
  · unfold delete_product
    simp [List.any_eq_true, List.all_eq_true]

/-- C7: `get_inventory_stats` aggregates exactly over the product table:
row count, sum of `quantity * price`, sum of `quantity`, and the count of rows
with `quantity <= min_quantity`; on an empty table this yields the all-zero
record rather than an error. -/
theorem get_inventory_stats_formulas (s : Store) :
    get_inventory_stats s =
      ⟨s.products.length,
       (s.products.map fun p => (p.quantity : Rat) * p.price).sum,
       (s.products.map fun p => p.quantity).sum,
       (s.products.filter fun p => p.quantity ≤ p.min_quantity).length⟩ := by
  unfold get_inventory_stats get_all_products
  have hperm := List.perm_insertionSort product_name_le s.products
  by_cases he : (List.insertionSort product_name_le s.products).isEmpty
  · have hnil : s.products = [] := by
      have hlen := hperm.length_eq
      rw [List.isEmpty_iff_length_eq_zero] at he
      rw [he] at hlen
      exact List.length_eq_zero.mp hlen.symm
    simp [he, hnil]
  · simp only [he, if_false, Bool.false_eq_true]
    rw [InventoryStats.mk.injEq]
    exact ⟨hperm.length_eq, (hperm.map _).sum_eq, (hperm.map _).sum_eq,
      (hperm.filter _).length_eq⟩

theorem ledger_sum_append_one (ps : List Product) (ts : List Transaction) (n : Nat)
    (t : Transaction) (pid : Nat) :
    ledger_sum ⟨ps, ts ++ [t], n⟩ pid =
      ledger_sum ⟨ps, ts, n⟩ pid + (if t.product_id = pid then t.quantity_change else 0) := by
  unfold ledger_sum
  by_cases h : t.product_id = pid <;> simp [List.filter_append, h]

theorem map_pid_update (l : List Product) (pid : Nat) (q : Int) (now : Nat) :
    ((l.map fun p =>
        if p.product_id = pid then { p with quantity := q, last_updated := now } else p).map
      fun p => p.product_id) = l.map fun p => p.product_id := by
  induction l with
  | nil => rfl
  | cons a t ih => by_cases h : a.product_id = pid <;> simp [h, ih]

theorem find?_eq_of_mem_nodup {l : List Product}
    (hnd : (l.map fun p => p.product_id).Nodup) {p : Product} (hp : p ∈ l) :
    l.find? (fun q => q.product_id == p.product_id) = some p := by
  cases hfind : l.find? (fun q => q.product_id == p.product_id) with
  | none =>
    exfalso
    have h := List.find?_eq_none.mp hfind p hp
    simp at h
  | some q =>
    have hqm := List.mem_of_find?_eq_some hfind
    have hqe : q.product_id = p.product_id := by
      have := List.find?_some hfind
      simpa using this
    exact congrArg some (List.inj_on_of_nodup_map hnd hqm hp hqe)


theorem step_movement_ids (s : Store) (op : Nat × String × Int × Nat) :
    (step_movement s op).products.map (fun p => p.product_id) =
      s.products.map fun p => p.product_id := by
  obtain ⟨pid, ty, u, now⟩ := op
  show ((apply_stock_movement s pid ty u now).1.products.map fun p => p.product_id) = _
  rcases apply_stock_movement_cases s pid ty u now with heq | ⟨sel, d, _, heq⟩
  · rw [heq]
  · rw [heq]
    exact map_pid_update s.products pid (sel.quantity + d) now

theorem step_movement_inv (init : Nat → Int) (s : Store) (op : Nat × String × Int × Nat)
    (hnd : (s.products.map fun p => p.product_id).Nodup)
    (hinv : stock_ledger_inv init s) : stock_ledger_inv init (step_movement s op) := by
  obtain ⟨pid, ty, u, now⟩ := op
  show stock_ledger_inv init (apply_stock_movement s pid ty u now).1
  rcases apply_stock_movement_cases s pid ty u now with heq | ⟨sel, d, hfind, heq⟩
  · rw [heq]; exact hinv
  · rw [heq]
    intro p hp
    rw [List.mem_map] at hp
    obtain ⟨p0, hp0, hupd⟩ := hp
    subst hupd
    have hselm := List.mem_of_find?_eq_some hfind
    have hselpid : sel.product_id = pid := by
      have := List.find?_some hfind
      simpa using this
    have happ := ledger_sum_append_one
      (s.products.map fun q =>
        if q.product_id = pid then { q with quantity := sel.quantity + d, last_updated := now }
        else q)
      s.transactions (s.next_transaction_id + 1)
      ⟨s.next_transaction_id, pid, ty, d, now⟩ p0.product_id
    have hsq : ledger_sum
        ⟨s.products.map fun q =>
            if q.product_id = pid then
              { q with quantity := sel.quantity + d, last_updated := now }
            else q,
          s.transactions, s.next_transaction_id + 1⟩ p0.product_id =
        ledger_sum s p0.product_id := rfl
    rw [hsq] at happ
    dsimp only at happ
    by_cases hc : p0.product_id = pid
    · have hsel0 : sel = p0 := List.inj_on_of_nodup_map hnd hselm hp0 (by rw [hselpid, hc])
      rw [if_pos hc]
      show sel.quantity + d = init p0.product_id + _
      rw [happ, if_pos hc.symm]
      have hbase := hinv p0 hp0
      rw [hsel0]
      omega
    · rw [if_neg hc]
      show p0.quantity = init p0.product_id + _
      rw [happ, if_neg fun h => hc h.symm]
      have hbase := hinv p0 hp0
      omega

theorem run_movements_cons (s : Store) (op : Nat × String × Int × Nat)
    (ops : List (Nat × String × Int × Nat)) :
    run_movements s (op :: ops) = run_movements (step_movement s op) ops := rfl

theorem run_movements_ids (s : Store) (ops : List (Nat × String × Int × Nat)) :
    (run_movements s ops).products.map (fun p => p.product_id) =
      s.products.map fun p => p.product_id := by
  induction ops generalizing s with
  | nil => rfl
  | cons op ops ih => rw [run_movements_cons, ih, step_movement_ids]

theorem run_movements_inv (init : Nat → Int) (s : Store)
    (ops : List (Nat × String × Int × Nat))
    (hnd : (s.products.map fun p => p.product_id).Nodup)
    (hinv : stock_ledger_inv init s) :
    stock_ledger_inv init (run_movements s ops) := by
  induction ops generalizing s with
  | nil => exact hinv
  | cons op ops ih =>
    rw [run_movements_cons]
    exact ih _ (by rw [step_movement_ids]; exact hnd) (step_movement_inv init s op hnd hinv)


/-- C3: starting from a creation-time store (distinct product ids, empty
transaction ledger), after any sequence of stock-movement submits every
product's current quantity equals its initial quantity plus the sum of
`quantity_change` over its transactions — the ledger reconstructs the
balance. -/
theorem reconciliation_invariant (s0 : Store) (ops : List (Nat × String × Int × Nat))
    (hnd : (s0.products.map fun p => p.product_id).Nodup)
    (h0 : s0.transactions = []) :
    reconciles s0 (run_movements s0 ops) = true := by
  have hbase : stock_ledger_inv (init_qty s0) s0 := by
    intro p hp
    have hfind := find?_eq_of_mem_nodup hnd hp
    have hi : init_qty s0 p.product_id = p.quantity := by
      simp only [init_qty, hfind]
    have hzero : ledger_sum s0 p.product_id = 0 := by
      unfold ledger_sum
      rw [h0]
      rfl
    omega
  have hfin := run_movements_inv (init_qty s0) s0 ops hnd hbase
  rw [reconciles, List.all_eq_true]
  intro p hp
  have hq := hfin p hp
  have hidm : p.product_id ∈ s0.products.map fun p => p.product_id := by
    rw [← run_movements_ids s0 ops]
    exact List.mem_map_of_mem _ hp
  rw [List.mem_map] at hidm
  obtain ⟨p0, hp00, hpid⟩ := hidm
  have hfind0 := find?_eq_of_mem_nodup hnd hp00
  rw [hpid] at hfind0
  simp only [hfind0]
  rw [beq_iff_eq]
  have hi : init_qty s0 p.product_id = p0.quantity := by
    simp only [init_qty, hfind0]
  omega

theorem reconciliation_invariant_witness :
    reconciles ⟨[⟨1, "ab", 5, 5, 1, 0, 0, 0⟩, ⟨2, "cd", 3, 5, 1, 0, 0, 0⟩], [], 1⟩
      (run_movements ⟨[⟨1, "ab", 5, 5, 1, 0, 0, 0⟩, ⟨2, "cd", 3, 5, 1, 0, 0, 0⟩], [], 1⟩
        [(1, "RESTOCK", 4, 1), (1, "SALE", 7, 2), (2, "SALE", 3, 3)]) = true :=
  reconciliation_invariant
    ⟨[⟨1, "ab", 5, 5, 1, 0, 0, 0⟩, ⟨2, "cd", 3, 5, 1, 0, 0, 0⟩], [], 1⟩
    [(1, "RESTOCK", 4, 1), (1, "SALE", 7, 2), (2, "SALE", 3, 3)]
    (by decide) (by decide)


theorem re_match_here_eq_ci_prefix (pat : List Char) (h : '.' ∉ pat) :
    ∀ s : List Char, re_match_here pat s = ci_prefix pat s := by
  induction pat with
  | nil => intro s; cases s <;> rfl
  | cons pc ps ih =>
    intro s
    cases s with
    | nil => rfl
    | cons c cs =>
      have hpc : ¬ pc = '.' := fun he => h (he ▸ List.mem_cons_self pc ps)
      have hb : (pc == '.') = false := beq_eq_false_iff_ne.mpr hpc
      have htail := ih (fun hm => h (List.mem_cons_of_mem pc hm)) cs
      simp [re_match_here, ci_prefix, re_char_match, hb, htail]

theorem re_search_eq_ci_contains (pat : List Char) (h : '.' ∉ pat) :
    ∀ s : List Char, re_search pat s = ci_contains pat s := by
  intro s
  induction s with
  | nil => simp [re_search, ci_contains, re_match_here_eq_ci_prefix pat h]
  | cons c cs ih => simp [re_search, ci_contains, re_match_here_eq_ci_prefix pat h, ih]

theorem re_search_nil_pat (s : List Char) : re_search [] s = true := by
  cases s <;> rfl

theorem str_le_chars_total : ∀ as bs : List Char,
    str_le_chars as bs = true ∨ str_le_chars bs as = true := by
  intro as
  induction as with
  | nil => intro bs; left; rfl
  | cons a at_ ih =>
    intro bs
    cases bs with
    | nil => right; rfl
    | cons b bt =>
      by_cases h : a.toNat = b.toNat
      · rcases ih bt with h1 | h1
        · left; simp [str_le_chars, h, h1]
        · right; simp [str_le_chars, h.symm, h1]
      · by_cases hlt : a.toNat < b.toNat
        · left; simp [str_le_chars, h, hlt]
        · right
          have hne : ¬ b.toNat = a.toNat := fun he => h he.symm
          have : b.toNat < a.toNat := by omega
          simp [str_le_chars, hne, this]

theorem str_le_chars_trans : ∀ as bs cs : List Char,
    str_le_chars as bs = true → str_le_chars bs cs = true → str_le_chars as cs = true := by
  intro as
  induction as with
  | nil => intro bs cs _ _; rfl
  | cons a at_ ih =>
    intro bs cs hab hbc
    cases bs with
    | nil => simp [str_le_chars] at hab
    | cons b bt =>
      cases cs with
      | nil => simp [str_le_chars] at hbc
      | cons c ct =>
        by_cases h1 : a.toNat = b.toNat <;> by_cases h2 : b.toNat = c.toNat
        · rw [str_le_chars, if_pos h1] at hab
          rw [str_le_chars, if_pos h2] at hbc
          rw [str_le_chars, if_pos (h1.trans h2)]
          exact ih bt ct hab hbc
        · rw [str_le_chars, if_neg h2] at hbc
          have hbc' : b.toNat < c.toNat := by simpa using hbc
          have hac : a.toNat < c.toNat := by omega
          rw [str_le_chars, if_neg (by omega)]
          simpa using hac
        · rw [str_le_chars, if_neg h1] at hab
          have hab' : a.toNat < b.toNat := by simpa using hab
          have hac : a.toNat < c.toNat := by omega
          rw [str_le_chars, if_neg (by omega)]
          simpa using hac
        · rw [str_le_chars, if_neg h1] at hab
          rw [str_le_chars, if_neg h2] at hbc
          have hab' : a.toNat < b.toNat := by simpa using hab
          have hbc' : b.toNat < c.toNat := by simpa using hbc
          rw [str_le_chars, if_neg (by omega)]
          simpa using (by omega : a.toNat < c.toNat)

instance : IsTotal Product product_name_le :=
  ⟨fun a b => str_le_chars_total a.name.data b.name.data⟩

instance : IsTrans Product product_name_le :=
  ⟨fun _ _ _ hab hbc => str_le_chars_trans _ _ _ hab hbc⟩

theorem sorted_by_name_of_sorted {l : List Product}
    (h : List.Sorted product_name_le l) : sorted_by_name l = true := by
  induction l with
  | nil => rfl
  | cons a t ih =>
    rw [List.sorted_cons] at h
    obtain ⟨hhead, htail⟩ := h
    cases t with
    | nil => rfl
    | cons b rest =>
      have h1 : str_le_chars a.name.data b.name.data = true :=
        hhead b (List.mem_cons_self b rest)
      simp [sorted_by_name, h1, ih htail]

/-- C9 (amended): for search terms free of regex metacharacters the search
returns exactly the products whose name contains the term as a
case-insensitive substring, in name order, and the empty term returns all
products; terms are interpreted as regular expressions, not raw substrings,
so the metacharacter-free hypothesis is necessary. -/
theorem search_products_substring (s : Store) (term : String)
    (hlit : regex_literal term = true) :
    search_products s term =
      (get_all_products s).filter (fun p => ci_contains term.data p.name.data) ∧
    (search_products s term).Perm
      (s.products.filter fun p => ci_contains term.data p.name.data) ∧
    sorted_by_name (search_products s term) = true ∧
    search_products s "" = get_all_products s := by
  have hdot : '.' ∉ term.data := by
    intro hmem
    rw [regex_literal, List.all_eq_true] at hlit
    exact absurd (hlit '.' hmem) (by decide)
  have hfe : search_products s term =
      (get_all_products s).filter (fun p => ci_contains term.data p.name.data) := by
    unfold search_products
    exact List.filter_congr fun p _ => re_search_eq_ci_contains term.data hdot p.name.data
  refine ⟨hfe, ?_, ?_, ?_⟩
  · rw [hfe]
    exact (List.perm_insertionSort product_name_le s.products).filter _
  · apply sorted_by_name_of_sorted
    unfold search_products
    exact List.Pairwise.sublist (List.filter_sublist _)
      (List.sorted_insertionSort product_name_le s.products)
  · unfold search_products
    exact List.filter_eq_self.mpr fun p _ => re_search_nil_pat p.name.data

theorem search_products_substring_witness :
    search_products ⟨[⟨1, "Beta", 5, 5, 1, 0, 0, 0⟩, ⟨2, "Alpha", 3, 5, 1, 0, 0, 0⟩], [], 1⟩
        "ET" =
      (get_all_products
          ⟨[⟨1, "Beta", 5, 5, 1, 0, 0, 0⟩, ⟨2, "Alpha", 3, 5, 1, 0, 0, 0⟩], [], 1⟩).filter
        (fun p => ci_contains "ET".data p.name.data) ∧
    (search_products ⟨[⟨1, "Beta", 5, 5, 1, 0, 0, 0⟩, ⟨2, "Alpha", 3, 5, 1, 0, 0, 0⟩], [], 1⟩
        "ET").Perm
      ([⟨1, "Beta", 5, 5, 1, 0, 0, 0⟩, ⟨2, "Alpha", 3, 5, 1, 0, 0, 0⟩].filter
        fun p => ci_contains "ET".data p.name.data) ∧
    sorted_by_name
      (search_products ⟨[⟨1, "Beta", 5, 5, 1, 0, 0, 0⟩, ⟨2, "Alpha", 3, 5, 1, 0, 0, 0⟩], [], 1⟩
        "ET") = true ∧
    search_products ⟨[⟨1, "Beta", 5, 5, 1, 0, 0, 0⟩, ⟨2, "Alpha", 3, 5, 1, 0, 0, 0⟩], [], 1⟩
        "" =
      get_all_products
        ⟨[⟨1, "Beta", 5, 5, 1, 0, 0, 0⟩, ⟨2, "Alpha", 3, 5, 1, 0, 0, 0⟩], [], 1⟩ :=
  search_products_substring
    ⟨[⟨1, "Beta", 5, 5, 1, 0, 0, 0⟩, ⟨2, "Alpha", 3, 5, 1, 0, 0, 0⟩], [], 1⟩ "ET" (by decide)

/-- C9 counterexample: the search term is compiled as a regular expression
(pandas `str.contains` defaults to `regex=True`), so the term "a." matches
the name "ab" and the product is returned even though "a." is not a
case-insensitive substring of "ab" — the claim as stated fails. -/
theorem search_products_regex_counterexample :
    search_products ⟨[⟨1, "ab", 5, 5, 1, 0, 0, 0⟩], [], 1⟩ "a." =
        [⟨1, "ab", 5, 5, 1, 0, 0, 0⟩] ∧
    ci_contains "a.".data "ab".data = false :=
  ⟨by decide, by decide⟩

set_option maxHeartbeats 3000000 in
theorem validate_segments (name : String) (price : Option Rat)
    (quantity min_quantity : Option Int) (cost : Option Rat) :
    validate_product_data name price quantity min_quantity cost =
      (if name.trim = "" then ["Məhsul adı tələb olunur"]
       else if name.trim.length < 2 then ["Məhsul adı ən azı 2 simvol olmalıdır"] else []) ++
      (if price.getD 0 ≤ 0 then ["Qiymət 0-dan böyük olmalıdır"] else []) ++
      (if quantity.getD 0 < 0 then ["Miqdar mənfi ola bilməz"] else []) ++
      (if min_quantity.getD 0 < 0 then ["Minimum miqdar mənfi ola bilməz"] else []) ++
      (if cost.getD 0 < 0 then ["Maya dəyəri mənfi ola bilməz"] else []) := by
  rcases price with _ | pr <;> rcases quantity with _ | q <;>
    rcases min_quantity with _ | mq <;> rcases cost with _ | c <;>
    by_cases h1 : name.trim = "" <;> by_cases h2 : name.trim.length < 2 <;>
    simp only [validate_product_data, Option.getD_some, Option.getD_none, List.nil_append,
      h1, h2, le_refl, lt_self_iff_false, if_true, if_false, List.append_nil] <;>
    split_ifs <;> rfl

theorem mem_err_ite {m a : String} {c : Prop} [Decidable c] :
    m ∈ (if c then [a] else []) ↔ c ∧ m = a := by
  split_ifs with h <;> simp [h]

theorem err_ite_eq_nil {a : String} {c : Prop} [Decidable c] :
    (if c then [a] else []) = [] ↔ ¬ c := by
  split_ifs with h <;> simp [h]

theorem mem_name_ite {m a b : String} {c1 c2 : Prop} [Decidable c1] [Decidable c2] :
    m ∈ (if c1 then [a] else if c2 then [b] else []) ↔
      (c1 ∧ m = a) ∨ (¬ c1 ∧ c2 ∧ m = b) := by
  split_ifs <;> simp_all

theorem name_ite_eq_nil {a b : String} {c1 c2 : Prop} [Decidable c1] [Decidable c2] :
    (if c1 then [a] else if c2 then [b] else []) = [] ↔ ¬ c1 ∧ ¬ c2 := by
  split_ifs <;> simp_all

/-- C5: `validate_product_data` reports the full set of violated constraints:
the result is empty exactly when the trimmed name has at least two
characters, the price is present and positive, and every provided optional
field is non-negative; and each individual message is present exactly when
its constraint is violated (absent price counts as violating the price
constraint, absent optional fields violate nothing). -/
theorem validate_product_data_complete (name : String) (price : Option Rat)
    (quantity min_quantity : Option Int) (cost : Option Rat) :
    (validate_product_data name price quantity min_quantity cost = [] ↔
      (2 ≤ name.trim.length ∧ 0 < price.getD 0 ∧ 0 ≤ quantity.getD 0 ∧
        0 ≤ min_quantity.getD 0 ∧ 0 ≤ cost.getD 0)) ∧
    (("Məhsul adı tələb olunur" ∈ validate_product_data name price quantity min_quantity cost ∨
        "Məhsul adı ən azı 2 simvol olmalıdır" ∈
          validate_product_data name price quantity min_quantity cost) ↔
      name.trim.length < 2) ∧
    ("Qiymət 0-dan böyük olmalıdır" ∈
        validate_product_data name price quantity min_quantity cost ↔
      price.getD 0 ≤ 0) ∧
    ("Miqdar mənfi ola bilməz" ∈ validate_product_data name price quantity min_quantity cost ↔
      quantity.getD 0 < 0) ∧
    ("Minimum miqdar mənfi ola bilməz" ∈
        validate_product_data name price quantity min_quantity cost ↔
      min_quantity.getD 0 < 0) ∧
    ("Maya dəyəri mənfi ola bilməz" ∈
        validate_product_data name price quantity min_quantity cost ↔
      cost.getD 0 < 0) := by
  rw [validate_segments]
  have himp : name.trim = "" → name.trim.length < 2 := fun h => by rw [h]; decide
  refine ⟨?_, ?_, ?_, ?_, ?_, ?_⟩
  · simp only [List.append_eq_nil, name_ite_eq_nil, err_ite_eq_nil, not_le, not_lt]
    constructor
    · rintro ⟨⟨⟨⟨⟨_, hn2⟩, hpr⟩, hq⟩, hmq⟩, hc⟩
      exact ⟨hn2, hpr, hq, hmq, hc⟩
    · rintro ⟨hlen, hpr, hq, hmq, hc⟩
      exact ⟨⟨⟨⟨⟨fun hc0 => absurd hlen (by rw [hc0]; decide), hlen⟩, hpr⟩, hq⟩, hmq⟩, hc⟩
  · simp +decide [List.mem_append, mem_name_ite, mem_err_ite]
    constructor
    · rintro (h | ⟨_, h⟩)
      · exact himp h
      · exact h
    · intro h
      by_cases hc1 : name.trim = ""
      · exact Or.inl hc1
      · exact Or.inr ⟨hc1, h⟩
  · simp +decide [List.mem_append, mem_name_ite, mem_err_ite]
  · simp +decide [List.mem_append, mem_name_ite, mem_err_ite]
  · simp +decide [List.mem_append, mem_name_ite, mem_err_ite]
  · simp +decide [List.mem_append, mem_name_ite, mem_err_ite]
